import Mathlib

/-!
Verification of the WHB04B-4 pendant driver (`src/whb04b-4.ts`).

Shallow embedding conventions:
* JS numbers are modelled as exact rationals (`ℚ`) where the source computes
  with fractional values, and as `ℤ`/`ℕ` where the source computes with
  integers or bytes; every 16/32-bit coercion of the source is made explicit.
* The mutable driver object becomes explicit state records; every
  `socket.emit` becomes an element of a returned emission list.
-/

namespace Whb04b4

/-- `Math.round` of JavaScript (round half toward positive infinity). -/
def jsRound (x : ℚ) : ℤ := ⌊x + 1 / 2⌋

/-- `(v << 16) >> 16` on a JS 32-bit integer: sign-extension of the low
16 bits, i.e. two's-complement wraparound into `[-2^15, 2^15)`. -/
def toInt16 (x : ℤ) : ℤ := (x + 2 ^ 15) % 2 ^ 16 - 2 ^ 15

/-- `encodeFloat` (whb04b-4.ts:393-399).  `intV / 10000` is JS float
division truncated toward zero by the `<< 16` coercion, hence `Int.tdiv`
on the integral `intV`; likewise `intV % 10000` is `Int.tmod`.  The
`fractPart | 0x8000` OR operates on the fractional word, which is
nonnegative here (it is `toInt16` of a value in `[0, 9999]`), so it is
taken through `Int.toNat`.  The final `Math.floor` of the source is the
identity on the already-integral `intPart`. -/
def encodeFloat (v : ℚ) : ℤ × ℤ :=
  let intV : ℤ := jsRound (|v| * 10000)
  let intPart : ℤ := toInt16 (intV.tdiv 10000)
  let fractPart : ℤ := toInt16 (intV.tmod 10000)
  let fractPart : ℤ := if v < 0 then Int.ofNat (fractPart.toNat ||| 0x8000) else fractPart
  (intPart, fractPart)

/-- Jog-delta decoding (whb04b-4.ts:595-596):
`data[JOG] > 128 ? data[JOG] - 256 : data[JOG]`. -/
def decodeJogCounts (b : ℕ) : ℤ := if b > 128 then (b : ℤ) - 256 else (b : ℤ)

lemma toInt16_eq_self {x : ℤ} (h0 : 0 ≤ x) (h1 : x ≤ 32767) : toInt16 x = x := by
  unfold toInt16
  omega

lemma lor_two_pow_15 {m : ℕ} (h : m < 32768) : m ||| 32768 = m + 32768 := by
  have h2 : (2 : ℕ) ^ 15 * 1 ||| m = 2 ^ 15 * 1 + m :=
    (Nat.mul_add_lt_is_or (by omega) 1).symm
  norm_num at h2
  rw [Nat.lor_comm, h2]
  omega

/-- C4: for `|v| < 32767`, `encodeFloat v` is the pair `(i, f)` where, with
`n = round(|v| * 10000)`, the integer word `i` is `n / 10000` truncated
through 16-bit two's-complement wraparound (which in this range leaves
`n / 10000` itself), the fractional word `f` carries `n % 10000 ∈ [0, 9999]`
in its low bits, and bit 15 of `f` is set exactly when `v` is negative. -/
theorem encodeFloat_spec (v : ℚ) (hv : |v| < 32767) :
    (encodeFloat v).1 = toInt16 ((jsRound (|v| * 10000)).tdiv 10000) ∧
    (encodeFloat v).1 = (jsRound (|v| * 10000)).tdiv 10000 ∧
    (encodeFloat v).2 = (jsRound (|v| * 10000)).tmod 10000 +
      (if v < 0 then 32768 else 0) ∧
    0 ≤ (jsRound (|v| * 10000)).tmod 10000 ∧
    (jsRound (|v| * 10000)).tmod 10000 ≤ 9999 ∧
    ((encodeFloat v).2.toNat.testBit 15 = true ↔ v < 0) := by
  set n : ℤ := jsRound (|v| * 10000) with hn
  have hn0 : 0 ≤ n := by
    rw [hn, jsRound]
    apply Int.floor_nonneg.mpr
    positivity
  have hnub : n ≤ 327670000 := by
    have h1 : (n : ℚ) ≤ |v| * 10000 + 1 / 2 := by
      rw [hn, jsRound]; exact Int.floor_le _
    have h2 : |v| * 10000 < 327670000 := by
      have := mul_lt_mul_of_pos_right hv (show (0 : ℚ) < 10000 by norm_num)
      linarith
    have h3 : (n : ℚ) < 327670001 := by linarith
    exact_mod_cast Int.lt_add_one_iff.mp (by exact_mod_cast h3)
  have hdiv : n.tdiv 10000 = n / 10000 := Int.tdiv_eq_ediv hn0 (by norm_num)
  have hmod : n.tmod 10000 = n % 10000 := Int.tmod_eq_emod hn0 (by norm_num)
  have hdiv0 : 0 ≤ n.tdiv 10000 := by rw [hdiv]; exact Int.ediv_nonneg hn0 (by norm_num)
  have hdivub : n.tdiv 10000 ≤ 32767 := by rw [hdiv]; omega
  have hmod0 : 0 ≤ n.tmod 10000 := by rw [hmod]; exact Int.emod_nonneg n (by norm_num)
  have hmodub : n.tmod 10000 ≤ 9999 := by
    rw [hmod]
    have := Int.emod_lt_of_pos n (show (0 : ℤ) < 10000 by norm_num)
    omega
  have hfr : toInt16 (n.tmod 10000) = n.tmod 10000 := toInt16_eq_self hmod0 (by omega)
  have hi : (encodeFloat v).1 = toInt16 (n.tdiv 10000) := by
    simp only [encodeFloat, ← hn]
  have hfneg : v < 0 → (encodeFloat v).2 = n.tmod 10000 + 32768 := by
    intro hvneg
    simp only [encodeFloat, ← hn, hfr, if_pos hvneg]
    have htn : (n.tmod 10000).toNat < 32768 := by omega
    rw [lor_two_pow_15 htn]
    simp only [Int.ofNat_eq_natCast]
    omega
  have hfpos : ¬ v < 0 → (encodeFloat v).2 = n.tmod 10000 := by
    intro hvpos
    simp only [encodeFloat, ← hn, hfr, if_neg hvpos]
  refine ⟨hi, ?_, ?_, hmod0, hmodub, ?_⟩
  · rw [hi, toInt16_eq_self hdiv0 hdivub]
  · by_cases hvlt : v < 0
    · rw [hfneg hvlt, if_pos hvlt]
    · rw [hfpos hvlt, if_neg hvlt]; ring
  · constructor
    · intro hbit
      by_contra hvpos
      have hf := hfpos hvpos
      have : (encodeFloat v).2.toNat ≤ 9999 := by omega
      have := Nat.testBit_lt_two_pow (show (encodeFloat v).2.toNat < 2 ^ 15 by omega) ▸ hbit
      rw [Nat.testBit_lt_two_pow (show (encodeFloat v).2.toNat < 2 ^ 15 by omega)] at hbit
      exact Bool.false_ne_true hbit
    · intro hvneg
      have hf := hfneg hvneg
      have hval : (encodeFloat v).2.toNat = (n.tmod 10000).toNat + 32768 := by omega
      rw [hval, Nat.testBit_to_div_mod]
      have : ((n.tmod 10000).toNat + 32768) / 2 ^ 15 = 1 := by omega
      rw [this]
      norm_num

/-- C4 witness: `encodeFloat (-123.4567)` evaluates to the words
`(123, 4567 + 0x8000)`, and the theorem applies at this input. -/
theorem encodeFloat_spec_witness :
    |(-1234567 / 10000 : ℚ)| < 32767 ∧
    (encodeFloat (-1234567 / 10000)).1 = 123 ∧
    (encodeFloat (-1234567 / 10000)).2 = 37335 := by
  have h : |(-1234567 / 10000 : ℚ)| < 32767 := by norm_num [abs_of_nonpos]
  obtain ⟨-, h2, h3, -, -, -⟩ := encodeFloat_spec (-1234567 / 10000) h
  have hjs : jsRound (|(-1234567 / 10000 : ℚ)| * 10000) = 1234567 := by
    norm_num [jsRound, abs_of_nonpos]
  refine ⟨h, ?_, ?_⟩
  · rw [h2, hjs]
    decide
  · rw [h3, hjs, if_pos (by norm_num : (-1234567 / 10000 : ℚ) < 0)]
    decide

/-- C6: the decoded jog delta follows the source rule exactly: a byte value
strictly greater than 128 is interpreted as `byte - 256` (negative), any
other byte value stands for itself; over the byte range `0..255` the result
lies in `[-127, 128]` (note the byte `128` decodes to `+128`, not `-128`). -/
theorem decodeJogCounts_spec (b : ℕ) (hb : b < 256) :
    decodeJogCounts b = (if b > 128 then (b : ℤ) - 256 else (b : ℤ)) ∧
    (b > 128 → decodeJogCounts b < 0) ∧
    (b ≤ 128 → decodeJogCounts b = (b : ℤ)) ∧
    -127 ≤ decodeJogCounts b ∧ decodeJogCounts b ≤ 128 := by
  unfold decodeJogCounts
  refine ⟨rfl, ?_, ?_, ?_, ?_⟩ <;> by_cases h : b > 128 <;> simp [h] <;> omega

/-- C6 witness: byte `200` decodes to `-56`, which the theorem certifies. -/
theorem decodeJogCounts_spec_witness :
    decodeJogCounts 200 = -56 ∧ decodeJogCounts 3 = 3 := by
  have h1 := decodeJogCounts_spec 200 (by norm_num)
  have h2 := decodeJogCounts_spec 3 (by norm_num)
  constructor
  · rw [h1.1]; norm_num
  · exact h2.2.2.1 (by norm_num)

/-- G-code distance mode (`Distance` enum, whb04b-4.ts:124-127). -/
inductive Distance where
  | Absolute
  | Relative
deriving DecidableEq, Repr

/-- `CommandType` (whb04b-4.ts:78-81). -/
inductive CommandType where
  | Position
  | Other
deriving DecidableEq, Repr

/-- `Command` (whb04b-4.ts:83-86). -/
structure Command where
  type : CommandType
  code : String
deriving DecidableEq, Repr

/-- The command-queue slice of the driver state: `commandExecuted`,
`commandBuffer`, and `controllerState.distance`. -/
structure QState where
  commandExecuted : Bool
  commandBuffer : List Command
  distance : Distance
deriving DecidableEq, Repr

/-- One `socket.emit("write", ...)` performed by the command queue, with
ghost bookkeeping for the proofs: the written line, the `Command.type` of
the written command, whether the write came from draining `commandBuffer`
(step 1, which clears `commandExecuted`) or was the proactive step-2
`"G90"`, whether the command was unshifted by the distance-mode
bracketing, and `controllerState.distance` at the moment of the write. -/
structure Emission where
  code : String
  kind : CommandType
  fromBuffer : Bool
  inserted : Bool
  dist : Distance
deriving DecidableEq, Repr

/-- `processCommandBuffer` (whb04b-4.ts:712-738).  In the nonempty branch
the source first unshifts a bracketing `"G91"`/`"G90"` when the head's kind
disagrees with `controllerState.distance` (updating `distance`), then sets
`commandExecuted = false`, writes `commandBuffer[0]` and drops it; the
tuple below carries (sent head, remaining buffer, new distance, whether the
sent head was the unshifted bracket command). -/
def processCommandBuffer (s : QState) : QState × List Emission :=
  match s.commandBuffer with
  | c :: rest =>
    if s.commandExecuted then
      let step :=
        if c.type = CommandType.Position ∧ s.distance = Distance.Absolute then
          ((⟨CommandType.Other, "G91"⟩ : Command), c :: rest, Distance.Relative, true)
        else if ¬ c.type = CommandType.Position ∧ s.distance = Distance.Relative then
          ((⟨CommandType.Other, "G90"⟩ : Command), c :: rest, Distance.Absolute, true)
        else (c, rest, s.distance, false)
      match step with
      | (h, t, d, ins) =>
        (⟨false, t, d⟩, [⟨h.code ++ "\n", h.type, true, ins, d⟩])
    else (s, [])
  | [] =>
    if s.commandExecuted ∧ s.distance = Distance.Relative then
      ({ s with distance := Distance.Absolute },
       [⟨"G90\n", CommandType.Other, false, false, Distance.Absolute⟩])
    else (s, [])

/-- External events driving the command queue: enqueueing a command
(`sendPositionGCode`, whb04b-4.ts:707-710, generalized to either command
kind) and a `serialport:read` reply line (whb04b-4.ts:232-237). -/
inductive QEvent where
  | enq (c : Command)
  | readLine (line : String)
deriving DecidableEq, Repr

/-- JS whitespace as far as `String.prototype.trim` is concerned,
restricted to the ASCII whitespace characters. -/
def isJsSpace (c : Char) : Bool := c = ' ' ∨ c = '\t' ∨ c = '\n' ∨ c = '\r' ∨ c = '\x0b' ∨ c = '\x0c'

/-- JS `String.prototype.trim`: strip leading and trailing whitespace. -/
def jsTrim (s : String) : String :=
  ⟨((s.data.dropWhile isJsSpace).reverse.dropWhile isJsSpace).reverse⟩

/-- One event step of the queue.  An enqueue pushes and drains; a reply
line sets `commandExecuted = true` and drains only when it trims to
`"ok"` (whb04b-4.ts:232-237), and is ignored otherwise. -/
def stepEvent (s : QState) (e : QEvent) : QState × List Emission :=
  match e with
  | .enq c => processCommandBuffer { s with commandBuffer := s.commandBuffer ++ [c] }
  | .readLine line =>
    if jsTrim line = "ok" then processCommandBuffer { s with commandExecuted := true }
    else (s, [])

/-- Run the queue over an event list, concatenating emissions. -/
def run : QState → List QEvent → QState × List Emission
  | s, [] => (s, [])
  | s, e :: es =>
    let p := stepEvent s e
    let r := run p.1 es
    (r.1, p.2 ++ r.2)

/-- The queue state at driver construction (whb04b-4.ts:248-259). -/
def qInit : QState := ⟨true, [], Distance.Absolute⟩

/-- Number of drain-step-1 sends (the sends that clear `commandExecuted`). -/
def gatedCount (l : List Emission) : ℕ := (l.filter (·.fromBuffer)).length

/-- Number of acknowledgment events (reply lines trimming to `"ok"`). -/
def okCount : List QEvent → ℕ
  | [] => 0
  | .readLine line :: es => (if jsTrim line = "ok" then 1 else 0) + okCount es
  | .enq _ :: es => okCount es

/-- 1 while the queue may send (`commandExecuted = true`), else 0. -/
def credit (s : QState) : ℕ := if s.commandExecuted then 1 else 0

lemma gatedCount_append (a b : List Emission) :
    gatedCount (a ++ b) = gatedCount a + gatedCount b := by
  simp [gatedCount, List.filter_append]

lemma pcb_idle (s : QState) (h : s.commandExecuted = false) :
    processCommandBuffer s = (s, []) := by
  obtain ⟨cE, buf, d⟩ := s
  simp only at h
  subst h
  cases buf <;> simp [processCommandBuffer]

lemma pcb_nil_abs :
    processCommandBuffer ⟨true, [], Distance.Absolute⟩ =
      (⟨true, [], Distance.Absolute⟩, []) := rfl

lemma pcb_nil_rel :
    processCommandBuffer ⟨true, [], Distance.Relative⟩ =
      (⟨true, [], Distance.Absolute⟩,
       [⟨"G90\n", CommandType.Other, false, false, Distance.Absolute⟩]) := rfl

lemma pcb_bracket91 (c : Command) (rest : List Command)
    (hc : c.type = CommandType.Position) :
    processCommandBuffer ⟨true, c :: rest, Distance.Absolute⟩ =
      (⟨false, c :: rest, Distance.Relative⟩,
       [⟨"G91\n", CommandType.Other, true, true, Distance.Relative⟩]) := by
  simp [processCommandBuffer, hc]

lemma pcb_bracket90 (c : Command) (rest : List Command)
    (hc : ¬ c.type = CommandType.Position) :
    processCommandBuffer ⟨true, c :: rest, Distance.Relative⟩ =
      (⟨false, c :: rest, Distance.Absolute⟩,
       [⟨"G90\n", CommandType.Other, true, true, Distance.Absolute⟩]) := by
  simp [processCommandBuffer, hc]

lemma pcb_plain (c : Command) (rest : List Command) (d : Distance)
    (h1 : ¬(c.type = CommandType.Position ∧ d = Distance.Absolute))
    (h2 : ¬(¬ c.type = CommandType.Position ∧ d = Distance.Relative)) :
    processCommandBuffer ⟨true, c :: rest, d⟩ =
      (⟨false, rest, d⟩, [⟨c.code ++ "\n", c.type, true, false, d⟩]) := by
  simp [processCommandBuffer, if_neg h1, if_neg h2]

lemma processCommandBuffer_credit (s : QState) :
    gatedCount (processCommandBuffer s).2 + credit (processCommandBuffer s).1 ≤
      credit s := by
  obtain ⟨cE, buf, d⟩ := s
  cases cE with
  | false => rw [pcb_idle _ rfl]; simp [gatedCount]
  | true =>
    cases buf with
    | nil =>
      cases d with
      | Absolute => rw [pcb_nil_abs]; simp [gatedCount, credit]
      | Relative => rw [pcb_nil_rel]; simp [gatedCount, credit]
    | cons c rest =>
      by_cases h1 : c.type = CommandType.Position ∧ d = Distance.Absolute
      · obtain ⟨hc, hd⟩ := h1
        subst hd
        rw [pcb_bracket91 c rest hc]
        simp [gatedCount, credit]
      · by_cases h2 : ¬ c.type = CommandType.Position ∧ d = Distance.Relative
        · obtain ⟨hc, hd⟩ := h2
          subst hd
          rw [pcb_bracket90 c rest hc]
          simp [gatedCount, credit]
        · rw [pcb_plain c rest d h1 h2]
          simp [gatedCount, credit]

lemma processCommandBuffer_executed (s : QState)
    (h : (processCommandBuffer s).1.commandExecuted = true) :
    s.commandExecuted = true := by
  unfold processCommandBuffer at h
  match hs : s with
  | ⟨cE, [], d⟩ =>
    cases cE <;> cases d <;> simp_all
  | ⟨cE, c :: rest, d⟩ =>
    cases cE <;> simp_all

lemma stepEvent_credit (s : QState) (e : QEvent) :
    gatedCount (stepEvent s e).2 + credit (stepEvent s e).1 ≤
      okCount [e] + credit s := by
  cases e with
  | enq c =>
    have h := processCommandBuffer_credit { s with commandBuffer := s.commandBuffer ++ [c] }
    simpa [stepEvent, okCount, credit] using h
  | readLine line =>
    by_cases hok : jsTrim line = "ok"
    · have h := processCommandBuffer_credit { s with commandExecuted := true }
      have hc : credit { s with commandExecuted := true } = 1 := by simp [credit]
      rw [hc] at h
      simp only [stepEvent, if_pos hok, okCount, if_pos hok]
      omega
    · simp [stepEvent, if_neg hok, okCount, hok, gatedCount]

lemma run_credit (es : List QEvent) (s : QState) :
    gatedCount (run s es).2 + credit (run s es).1 ≤ okCount es + credit s := by
  induction es generalizing s with
  | nil => simp [run, gatedCount]
  | cons e es ih =>
    have h1 := stepEvent_credit s e
    have h2 := ih (stepEvent s e).1
    have hok : okCount (e :: es) = okCount [e] + okCount es := by
      cases e <;> simp [okCount]
    simp only [run, hok]
    rw [gatedCount_append]
    omega

/-- C1 counterexample: the claim as frozen is false on the code in two
ways.  First, the proactive `"G90"` of drain step 2 is written WITHOUT
setting `commandExecuted` to `false` (whb04b-4.ts:730-737 never touch the
flag).  Second, as a result more than one command can be
sent-but-unacknowledged: in the concrete trace below the queue writes 4
lines while only 2 `"ok"` acknowledgments ever arrive. -/
theorem commandExecuted_claim_counterexample :
    (processCommandBuffer ⟨true, [], Distance.Relative⟩).1.commandExecuted = true ∧
    (processCommandBuffer ⟨true, [], Distance.Relative⟩).2 =
      [⟨"G90\n", CommandType.Other, false, false, Distance.Absolute⟩] ∧
    okCount [QEvent.enq ⟨CommandType.Position, "G0 X1"⟩, QEvent.readLine "ok",
             QEvent.readLine "ok", QEvent.enq ⟨CommandType.Position, "G0 X2"⟩] = 2 ∧
    ((run qInit [QEvent.enq ⟨CommandType.Position, "G0 X1"⟩, QEvent.readLine "ok",
                 QEvent.readLine "ok",
                 QEvent.enq ⟨CommandType.Position, "G0 X2"⟩]).2).length = 4 := by
  refine ⟨rfl, rfl, by decide, by decide⟩

/-- C1 (amended): `commandExecuted` is initially `true`, is set `false`
exactly by the drain-step-1 sends from `commandBuffer`, and becomes `true`
only through a reply line trimming to `"ok"`; consequently at most one
buffer-drained command is sent-but-unacknowledged at any point (over every
event trace, the number of step-1 sends never exceeds the number of `"ok"`
acknowledgments plus one).  The proactive step-2 `"G90"` is sent without
clearing `commandExecuted` and is therefore not tracked by the flag. -/
theorem commandQueue_single_inflight :
    qInit.commandExecuted = true ∧
    (∀ es : List QEvent,
        gatedCount (run qInit es).2 + credit (run qInit es).1 ≤ okCount es + 1) ∧
    (∀ s : QState, ∀ em ∈ (processCommandBuffer s).2, em.fromBuffer = true →
        (processCommandBuffer s).1.commandExecuted = false ∧
          s.commandExecuted = true) ∧
    (∀ s : QState, s.commandBuffer = [] →
        (processCommandBuffer s).1.commandExecuted = s.commandExecuted) ∧
    (∀ (s : QState) (e : QEvent), (stepEvent s e).1.commandExecuted = true →
        s.commandExecuted = true ∨
          ∃ line, e = QEvent.readLine line ∧ jsTrim line = "ok") := by
  refine ⟨rfl, ?_, ?_, ?_, ?_⟩
  · intro es
    have h := run_credit es qInit
    simpa [credit, qInit] using h
  · intro s em hem hfb
    obtain ⟨cE, buf, d⟩ := s
    cases cE with
    | false =>
      rw [pcb_idle _ rfl] at hem
      simp at hem
    | true =>
      cases buf with
      | nil =>
        cases d with
        | Absolute => rw [pcb_nil_abs] at hem; simp at hem
        | Relative =>
          rw [pcb_nil_rel] at hem
          simp at hem
          rw [hem] at hfb
          simp at hfb
      | cons c rest =>
        refine ⟨?_, rfl⟩
        by_cases h1 : c.type = CommandType.Position ∧ d = Distance.Absolute
        · obtain ⟨hc, hd⟩ := h1
          subst hd
          rw [pcb_bracket91 c rest hc]
        · by_cases h2 : ¬ c.type = CommandType.Position ∧ d = Distance.Relative
          · obtain ⟨hc, hd⟩ := h2
            subst hd
            rw [pcb_bracket90 c rest hc]
          · rw [pcb_plain c rest d h1 h2]
  · intro s hbuf
    obtain ⟨cE, buf, d⟩ := s
    cases buf with
    | nil => cases cE <;> cases d <;> rfl
    | cons c rest => simp at hbuf
  · intro s e h
    cases e with
    | enq c =>
      left
      have h' : (processCommandBuffer
          { s with commandBuffer := s.commandBuffer ++ [c] }).1.commandExecuted = true := by
        simpa [stepEvent] using h
      exact processCommandBuffer_executed
        { s with commandBuffer := s.commandBuffer ++ [c] } h'
    | readLine line =>
      by_cases hok : jsTrim line = "ok"
      · right; exact ⟨line, rfl, hok⟩
      · left; simpa [stepEvent, if_neg hok] using h

/-- C1 witness: the amended theorem applied on a concrete trace and at a
concrete state/event, with each hypothesis discharged there. -/
theorem commandQueue_single_inflight_witness :
    gatedCount (run qInit [QEvent.enq ⟨CommandType.Position, "G0 X1"⟩]).2 +
        credit (run qInit [QEvent.enq ⟨CommandType.Position, "G0 X1"⟩]).1 ≤
      okCount [QEvent.enq ⟨CommandType.Position, "G0 X1"⟩] + 1 ∧
    ((processCommandBuffer ⟨true, [⟨CommandType.Other, "M05"⟩], Distance.Absolute⟩).1.commandExecuted = false ∧
      (true : Bool) = true) := by
  have h := commandQueue_single_inflight
  refine ⟨h.2.1 [QEvent.enq ⟨CommandType.Position, "G0 X1"⟩], ?_⟩
  have h3 := h.2.2.1 ⟨true, [⟨CommandType.Other, "M05"⟩], Distance.Absolute⟩
    ⟨"M05\n", CommandType.Other, true, false, Distance.Absolute⟩ (by decide) rfl
  exact h3

/-- Closed form of a full drain of `commandBuffer` by `processCommandBuffer`
(one acknowledged step-1 send per cycle): the emissions and the final
`distance`.  Proven to agree with `run` in `run_drain`. -/
def drainAll : Distance → List Command → List Emission × Distance
  | d, [] => ([], d)
  | d, c :: cs =>
    if c.type = CommandType.Position ∧ d = Distance.Absolute then
      let r := drainAll Distance.Relative cs
      (⟨"G91\n", CommandType.Other, true, true, Distance.Relative⟩ ::
        ⟨c.code ++ "\n", c.type, true, false, Distance.Relative⟩ :: r.1, r.2)
    else if ¬ c.type = CommandType.Position ∧ d = Distance.Relative then
      let r := drainAll Distance.Absolute cs
      (⟨"G90\n", CommandType.Other, true, true, Distance.Absolute⟩ ::
        ⟨c.code ++ "\n", c.type, true, false, Distance.Absolute⟩ :: r.1, r.2)
    else
      let r := drainAll d cs
      (⟨c.code ++ "\n", c.type, true, false, d⟩ :: r.1, r.2)

/-- Claim-side stream transform, written from the claim's words: the input
stream with `"G91"` inserted immediately before a POSITION head while the
mode is ABSOLUTE, and `"G90"` inserted immediately before a non-POSITION
head while the mode is RELATIVE. -/
def bracketSpec : Distance → List Command → List String
  | _, [] => []
  | d, c :: cs =>
    if c.type = CommandType.Position ∧ d = Distance.Absolute then
      "G91\n" :: (c.code ++ "\n") :: bracketSpec Distance.Relative cs
    else if ¬ c.type = CommandType.Position ∧ d = Distance.Relative then
      "G90\n" :: (c.code ++ "\n") :: bracketSpec Distance.Absolute cs
    else (c.code ++ "\n") :: bracketSpec d cs

/-- The event trace that drains a buffer of `k` commands: enough `"ok"`
acknowledgments (each bracketed command costs at most two sends). -/
def drainEvents (cs : List Command) : List QEvent :=
  List.replicate (2 * cs.length + 1) (QEvent.readLine "ok")

/-- Emission stream of a full drain starting from an idle queue whose
buffer holds `cs` and whose distance mode is `d`. -/
def drainRun (d : Distance) (cs : List Command) : List Emission :=
  (run ⟨true, cs, d⟩ (drainEvents cs)).2

lemma jsTrim_ok : jsTrim "ok" = "ok" := by decide

lemma step_ok (s : QState) :
    stepEvent s (QEvent.readLine "ok") =
      processCommandBuffer { s with commandExecuted := true } := by
  simp [stepEvent, jsTrim_ok]

lemma run_ok_succ (cE : Bool) (b : List Command) (d : Distance) (n : ℕ) :
    run ⟨cE, b, d⟩ (List.replicate (n + 1) (QEvent.readLine "ok")) =
      ((run (processCommandBuffer ⟨true, b, d⟩).1
          (List.replicate n (QEvent.readLine "ok"))).1,
       (processCommandBuffer ⟨true, b, d⟩).2 ++
         (run (processCommandBuffer ⟨true, b, d⟩).1
           (List.replicate n (QEvent.readLine "ok"))).2) := rfl

lemma run_ok_flag (b : List Command) (d : Distance) (n : ℕ) (hn : 1 ≤ n) :
    run ⟨false, b, d⟩ (List.replicate n (QEvent.readLine "ok")) =
      run ⟨true, b, d⟩ (List.replicate n (QEvent.readLine "ok")) := by
  obtain ⟨k, rfl⟩ : ∃ k, n = k + 1 := ⟨n - 1, by omega⟩
  rfl

lemma run_idle_abs (n : ℕ) :
    run ⟨true, [], Distance.Absolute⟩ (List.replicate n (QEvent.readLine "ok")) =
      (⟨true, [], Distance.Absolute⟩, []) := by
  induction n with
  | zero => rfl
  | succ m ih => simp [List.replicate_succ, run, step_ok, pcb_nil_abs, ih]

lemma run_drain (cs : List Command) : ∀ (d : Distance) (n : ℕ),
    2 * cs.length + 1 ≤ n →
    run ⟨true, cs, d⟩ (List.replicate n (QEvent.readLine "ok")) =
      (⟨true, [], Distance.Absolute⟩,
       (drainAll d cs).1 ++
         (if (drainAll d cs).2 = Distance.Relative then
            [⟨"G90\n", CommandType.Other, false, false, Distance.Absolute⟩]
          else [])) := by
  induction cs with
  | nil =>
    intro d n hn
    obtain ⟨m, rfl⟩ : ∃ m, n = m + 1 := ⟨n - 1, by omega⟩
    cases d with
    | Absolute =>
      rw [List.replicate_succ]
      simp [run, step_ok, pcb_nil_abs, run_idle_abs, drainAll]
    | Relative =>
      rw [List.replicate_succ]
      simp [run, step_ok, pcb_nil_rel, run_idle_abs, drainAll]
  | cons c cs ih =>
    intro d n hn
    simp only [List.length_cons] at hn
    by_cases h1 : c.type = CommandType.Position ∧ d = Distance.Absolute
    · obtain ⟨hc, hd⟩ := h1
      subst hd
      obtain ⟨m, rfl⟩ : ∃ m, n = m + 2 := ⟨n - 2, by omega⟩
      have hm2 : m + 2 = (m + 1) + 1 := rfl
      rw [hm2, run_ok_succ true (c :: cs) Distance.Absolute (m + 1),
        pcb_bracket91 c cs hc]
      dsimp only
      have hplain : processCommandBuffer ⟨true, c :: cs, Distance.Relative⟩ =
          (⟨false, cs, Distance.Relative⟩,
           [⟨c.code ++ "\n", c.type, true, false, Distance.Relative⟩]) :=
        pcb_plain c cs Distance.Relative (by simp) (by simp [hc])
      rw [run_ok_succ false (c :: cs) Distance.Relative m, hplain]
      dsimp only
      rw [run_ok_flag cs Distance.Relative m (by omega),
        ih Distance.Relative m (by omega)]
      dsimp only
      simp [drainAll, hc]
    · by_cases h2 : ¬ c.type = CommandType.Position ∧ d = Distance.Relative
      · obtain ⟨hc, hd⟩ := h2
        subst hd
        obtain ⟨m, rfl⟩ : ∃ m, n = m + 2 := ⟨n - 2, by omega⟩
        have hm2 : m + 2 = (m + 1) + 1 := rfl
        rw [hm2, run_ok_succ true (c :: cs) Distance.Relative (m + 1),
          pcb_bracket90 c cs hc]
        dsimp only
        have hplain : processCommandBuffer ⟨true, c :: cs, Distance.Absolute⟩ =
            (⟨false, cs, Distance.Absolute⟩,
             [⟨c.code ++ "\n", c.type, true, false, Distance.Absolute⟩]) :=
          pcb_plain c cs Distance.Absolute (by simp [hc]) (by simp)
        rw [run_ok_succ false (c :: cs) Distance.Absolute m, hplain]
        dsimp only
        rw [run_ok_flag cs Distance.Absolute m (by omega),
          ih Distance.Absolute m (by omega)]
        dsimp only
        simp [drainAll, hc]
      · obtain ⟨m, rfl⟩ : ∃ m, n = m + 1 := ⟨n - 1, by omega⟩
        rw [run_ok_succ true (c :: cs) d m, pcb_plain c cs d h1 h2]
        dsimp only
        rw [run_ok_flag cs d m (by omega), ih d m (by omega)]
        dsimp only
        simp [drainAll, if_neg h1, if_neg h2]

lemma drainAll_mem (cs : List Command) : ∀ (d : Distance),
    ∀ e ∈ (drainAll d cs).1,
      e.fromBuffer = true ∧
      (e.inserted = false →
        (e.kind = CommandType.Position → e.dist = Distance.Relative) ∧
        (e.kind = CommandType.Other → e.dist = Distance.Absolute)) ∧
      (e.inserted = true →
        (e.code = "G91\n" ∧ e.dist = Distance.Relative) ∨
        (e.code = "G90\n" ∧ e.dist = Distance.Absolute)) := by
  induction cs with
  | nil => intro d e he; simp [drainAll] at he
  | cons c cs ih =>
    intro d e he
    by_cases h1 : c.type = CommandType.Position ∧ d = Distance.Absolute
    · obtain ⟨hc, hd⟩ := h1
      subst hd
      rw [drainAll, if_pos ⟨hc, rfl⟩] at he
      simp only [List.mem_cons] at he
      rcases he with rfl | rfl | he
      · exact ⟨rfl, by simp, by simp⟩
      · refine ⟨rfl, ?_, by simp⟩
        intro _
        exact ⟨fun _ => rfl, fun _ => by simp_all⟩
      · exact ih Distance.Relative e he
    · by_cases h2 : ¬ c.type = CommandType.Position ∧ d = Distance.Relative
      · obtain ⟨hc, hd⟩ := h2
        subst hd
        rw [drainAll, if_neg (by simp [hc]), if_pos ⟨hc, rfl⟩] at he
        simp only [List.mem_cons] at he
        rcases he with rfl | rfl | he
        · exact ⟨rfl, by simp, by simp⟩
        · refine ⟨rfl, ?_, by simp⟩
          intro _
          exact ⟨fun hp => absurd hp hc, fun _ => rfl⟩
        · exact ih Distance.Absolute e he
      · rw [drainAll, if_neg h1, if_neg h2] at he
        simp only [List.mem_cons] at he
        rcases he with rfl | he
        · refine ⟨rfl, ?_, by simp⟩
          intro _
          constructor
          · intro hp
            simp only at hp
            cases d with
            | Absolute => exact absurd ⟨hp, rfl⟩ h1
            | Relative => rfl
          · intro ho
            simp only at ho
            cases d with
            | Absolute => rfl
            | Relative =>
              exfalso
              exact h2 ⟨by simp [ho], rfl⟩
        · exact ih d e he

lemma drainAll_codes (cs : List Command) : ∀ (d : Distance),
    ((drainAll d cs).1).map Emission.code = bracketSpec d cs := by
  induction cs with
  | nil => intro d; rfl
  | cons c cs ih =>
    intro d
    by_cases h1 : c.type = CommandType.Position ∧ d = Distance.Absolute
    · rw [drainAll, if_pos h1, bracketSpec, if_pos h1]
      simp [ih]
    · by_cases h2 : ¬ c.type = CommandType.Position ∧ d = Distance.Relative
      · rw [drainAll, if_neg h1, if_pos h2, bracketSpec, if_neg h1, if_pos h2]
        simp [ih]
      · rw [drainAll, if_neg h1, if_neg h2, bracketSpec, if_neg h1, if_neg h2]
        simp [ih]

lemma drainAll_chain (cs : List Command) : ∀ (d : Distance),
    List.Chain' (fun a b : Emission => a.inserted = false ∨ b.inserted = false)
      (drainAll d cs).1 := by
  induction cs with
  | nil => intro d; simp [drainAll]
  | cons c cs ih =>
    intro d
    by_cases h1 : c.type = CommandType.Position ∧ d = Distance.Absolute
    · rw [drainAll, if_pos h1]
      refine List.chain'_cons.mpr ⟨Or.inr rfl, ?_⟩
      exact List.chain'_cons'.mpr ⟨fun y _ => Or.inl rfl, ih Distance.Relative⟩
    · by_cases h2 : ¬ c.type = CommandType.Position ∧ d = Distance.Relative
      · rw [drainAll, if_neg h1, if_pos h2]
        refine List.chain'_cons.mpr ⟨Or.inr rfl, ?_⟩
        exact List.chain'_cons'.mpr ⟨fun y _ => Or.inl rfl, ih Distance.Absolute⟩
      · rw [drainAll, if_neg h1, if_neg h2]
        exact List.chain'_cons'.mpr ⟨fun y _ => Or.inl rfl, ih d⟩

lemma drainRun_split (d : Distance) (cs : List Command) :
    drainRun d cs =
      (drainAll d cs).1 ++
        (if (drainAll d cs).2 = Distance.Relative then
          [⟨"G90\n", CommandType.Other, false, false, Distance.Absolute⟩]
         else []) := by
  unfold drainRun drainEvents
  rw [run_drain cs d (2 * cs.length + 1) (le_refl _)]

/-- C3: draining any POSITION/OTHER command sequence through
`processCommandBuffer` (one `"ok"` acknowledgment per send) emits exactly
the input stream with `"G91"` inserted immediately before a POSITION head
while `distance = Absolute` and `"G90"` inserted immediately before a
non-POSITION head while `distance = Relative` (`bracketSpec`, written from
the claim's words); every input POSITION command is written while
`distance = Relative` and every input OTHER command while
`distance = Absolute`; an inserted `"G91"` itself goes out while
`distance = Relative` and an inserted `"G90"` while `distance = Absolute`;
and no two bracketing mode-switch commands are ever adjacent (in
particular never two consecutive identical ones).  The proactive trailing
`"G90"` of drain step 2 (not part of the per-head insertions) is the only
non-buffer emission and is excluded by the `fromBuffer` filter. -/
theorem bracketing_spec (d : Distance) (cs : List Command) :
    ((drainRun d cs).filter (·.fromBuffer)).map Emission.code = bracketSpec d cs ∧
    (∀ e ∈ drainRun d cs, e.fromBuffer = true → e.inserted = false →
      (e.kind = CommandType.Position → e.dist = Distance.Relative) ∧
      (e.kind = CommandType.Other → e.dist = Distance.Absolute)) ∧
    (∀ e ∈ drainRun d cs, e.inserted = true →
      (e.code = "G91\n" ∧ e.dist = Distance.Relative) ∨
      (e.code = "G90\n" ∧ e.dist = Distance.Absolute)) ∧
    List.Chain' (fun a b : Emission => a.inserted = false ∨ b.inserted = false)
      (drainRun d cs) := by
  rw [drainRun_split]
  have hfb : ∀ e ∈ (drainAll d cs).1, e.fromBuffer = true :=
    fun e he => (drainAll_mem cs d e he).1
  refine ⟨?_, ?_, ?_, ?_⟩
  · rw [List.filter_append]
    have h1 : (drainAll d cs).1.filter (·.fromBuffer) = (drainAll d cs).1 :=
      List.filter_eq_self.mpr (fun e he => by simp [hfb e he])
    have h2 : (if (drainAll d cs).2 = Distance.Relative then
        [(⟨"G90\n", CommandType.Other, false, false, Distance.Absolute⟩ : Emission)]
        else []).filter (·.fromBuffer) = [] := by
      split <;> rfl
    rw [h1, h2, List.append_nil, drainAll_codes]
  · intro e he hfb' hins
    rcases List.mem_append.mp he with h | h
    · exact ((drainAll_mem cs d e h).2.1) hins
    · have hf : e.fromBuffer = false := by
        revert h
        split
        · intro h
          simp only [List.mem_singleton] at h
          rw [h]
        · intro h
          simp at h
      rw [hf] at hfb'
      cases hfb'
  · intro e he hins
    rcases List.mem_append.mp he with h | h
    · exact ((drainAll_mem cs d e h).2.2) hins
    · have hf : e.inserted = false := by
        revert h
        split
        · intro h
          simp only [List.mem_singleton] at h
          rw [h]
        · intro h
          simp at h
      rw [hf] at hins
      cases hins
  · rw [List.chain'_append]
    refine ⟨drainAll_chain cs d, ?_, ?_⟩
    · split <;> simp
    · intro x _ y hy
      right
      revert hy
      split
      · intro hy
        simp only [List.head?_cons, Option.mem_def, Option.some.injEq] at hy
        subst hy
        rfl
      · intro hy
        simp at hy

/-- C3 witness: a concrete drain.  Starting in ABSOLUTE mode with input
`[POSITION "G0 X1", OTHER "M05"]`, the queue writes
`G91, G0 X1, G90, M05`, and the theorem's per-command mode facts apply to
the concrete POSITION emission. -/
theorem bracketing_spec_witness :
    ((drainRun Distance.Absolute
        [⟨CommandType.Position, "G0 X1"⟩, ⟨CommandType.Other, "M05"⟩]).filter
      (·.fromBuffer)).map Emission.code = ["G91\n", "G0 X1\n", "G90\n", "M05\n"] ∧
    (⟨"G0 X1\n", CommandType.Position, true, false, Distance.Relative⟩ : Emission).dist =
      Distance.Relative := by
  have h := bracketing_spec Distance.Absolute
    [⟨CommandType.Position, "G0 X1"⟩, ⟨CommandType.Other, "M05"⟩]
  constructor
  · exact h.1.trans (by decide)
  · exact (h.2.1 ⟨"G0 X1\n", CommandType.Position, true, false, Distance.Relative⟩
      (by decide) rfl rfl).1 rfl

/-- `CoordinateSystem` (whb04b-4.ts:61-64). -/
inductive CoordinateSystem where
  | machineCoordinates
  | workCoordinates
deriving DecidableEq, Repr

/-- The G-code line written by the `workingAreaHome` button case
(whb04b-4.ts:516-522): the source branches on `coordinateSystem` but sends
the same literal in both arms. -/
def workingAreaHomeGCode (cs : CoordinateSystem) : String :=
  if cs = CoordinateSystem.machineCoordinates then "G54 G90 G0 X0 Y0 Z0"
  else "G54 G90 G0 X0 Y0 Z0"

/-- C8 (code bug): the claim — and the spec sentence it comes from — say
`coordinateSystem` selects which "go home" target is used, but the code's
`workingAreaHome` handler emits the identical command `G54 G90 G0 X0 Y0 Z0`
in the MACHINE and the WORK branch; the `if` at whb04b-4.ts:517 has two
identical arms, so the selection never happens. -/
theorem workingAreaHome_same_command :
    workingAreaHomeGCode CoordinateSystem.machineCoordinates =
      workingAreaHomeGCode CoordinateSystem.workCoordinates ∧
    workingAreaHomeGCode CoordinateSystem.machineCoordinates =
      "G54 G90 G0 X0 Y0 Z0" := ⟨rfl, rfl⟩

/-- `runMacro` (whb04b-4.ts:691-697): `macroIndex >= 0 && macroIndex <
this.macros.length` guards a `macro:load` / `macro:run` pair on the
command channel; it never touches the queue state (passed through for the
frame property). -/
def runMacro (macros : List String) (st : QState) (i : ℤ) :
    QState × List (String × String) :=
  if h : 0 ≤ i ∧ i < (macros.length : ℤ) then
    let macroId := macros.get ⟨i.toNat, by omega⟩
    (st, [("macro:load", macroId), ("macro:run", macroId)])
  else (st, [])

/-- C9: when `0 ≤ i < length macros`, `runMacro` emits exactly a
`macro:load` followed by a `macro:run`, both carrying `macros[i]`; when
`i` is out of range it emits nothing; in both cases the state is passed
through unchanged. -/
theorem runMacro_spec (macros : List String) (st : QState) (i : ℤ) :
    (runMacro macros st i).1 = st ∧
    (∀ h : 0 ≤ i ∧ i < (macros.length : ℤ),
      (runMacro macros st i).2 =
        [("macro:load", macros.get ⟨i.toNat, by omega⟩),
         ("macro:run", macros.get ⟨i.toNat, by omega⟩)]) ∧
    (¬ (0 ≤ i ∧ i < (macros.length : ℤ)) → runMacro macros st i = (st, [])) := by
  refine ⟨?_, ?_, ?_⟩
  · unfold runMacro
    split <;> rfl
  · intro h
    unfold runMacro
    rw [dif_pos h]
  · intro h
    unfold runMacro
    rw [dif_neg h]

/-- C9 witness: slot 1 of `["a", "b"]` runs macro `"b"`; slot 5 is out of
range and emits nothing, leaving the state unchanged. -/
theorem runMacro_spec_witness :
    (runMacro ["a", "b"] qInit 1).2 =
      [("macro:load", "b"), ("macro:run", "b")] ∧
    runMacro ["a", "b"] qInit 5 = (qInit, []) := by
  have h1 := runMacro_spec ["a", "b"] qInit 1
  have h5 := runMacro_spec ["a", "b"] qInit 5
  constructor
  · rw [h1.2.1 ⟨by norm_num, by norm_num⟩]
    rfl
  · exact h5.2.2 (by decide)

/-- `sendGCode` (whb04b-4.ts:703-705): a single raw
`socket.emit("write", port, code + "\n")`, touching no driver state. -/
def sendGCode (st : QState) (code : String) : QState × List String :=
  (st, [code ++ "\n"])

/-- The fixed probe-Z button sequence (whb04b-4.ts:523-531), seven
`sendGCode` calls in a row; the template literals render the constants
`PROBE_DEPTH = 10`, `PROBE_FEEDRATE = 20`, `TOUCH_PLATE_THICKNESS = 24.2`,
`RETRACTION_DISTANCE = 4`. -/
def probeZSequence (st : QState) : QState × List String :=
  let r1 := sendGCode st "G91"
  let r2 := sendGCode r1.1 "G38.2 Z-10 F20"
  let r3 := sendGCode r2.1 "G90"
  let r4 := sendGCode r3.1 "G10 L20 P1 Z24.2"
  let r5 := sendGCode r4.1 "G91"
  let r6 := sendGCode r5.1 "G0 Z4"
  let r7 := sendGCode r6.1 "G90"
  (r7.1, r1.2 ++ r2.2 ++ r3.2 ++ r4.2 ++ r5.2 ++ r6.2 ++ r7.2)

/-- C10: `sendGCode` writes its line immediately for every state — in
particular regardless of `commandExecuted` and of any pending
`commandBuffer` contents — and leaves `commandExecuted`, `commandBuffer`
and `controllerState.distance` unchanged; the probe-Z handler's seven
lines (including its interior `G90`/`G91` lines) therefore bypass the
single-in-flight queue and its distance-mode bracketing entirely. -/
theorem sendGCode_bypasses_queue (st : QState) (code : String) :
    sendGCode st code = (st, [code ++ "\n"]) ∧
    (sendGCode st code).1.commandExecuted = st.commandExecuted ∧
    (sendGCode st code).1.commandBuffer = st.commandBuffer ∧
    (sendGCode st code).1.distance = st.distance ∧
    probeZSequence st =
      (st, ["G91\n", "G38.2 Z-10 F20\n", "G90\n", "G10 L20 P1 Z24.2\n",
            "G91\n", "G0 Z4\n", "G90\n"]) :=
  ⟨rfl, rfl, rfl, rfl, rfl⟩

/-- `Axis` (whb04b-4.ts:8-14). -/
inductive Axis where
  | OFF
  | X
  | Y
  | Z
  | A
deriving DecidableEq, Repr

/-- `Feed` (whb04b-4.ts:16-24). -/
inductive Feed where
  | MOVE_UNIT_2
  | MOVE_UNIT_5
  | MOVE_UNIT_10
  | MOVE_UNIT_30
  | MOVE_UNIT_60
  | MOVE_UNIT_100
  | MOVE_UNIT_LEAD
deriving DecidableEq, Repr

/-- `JogMode` (whb04b-4.ts:56-59). -/
inductive JogMode where
  | CONTINUOUS
  | STEP
deriving DecidableEq, Repr

/-- `FeedStepMap` (whb04b-4.ts:26-34): step distances in mm. -/
def FeedStepMap : Feed → ℚ
  | .MOVE_UNIT_2 => 1 / 1000
  | .MOVE_UNIT_5 => 1 / 100
  | .MOVE_UNIT_10 => 1 / 10
  | .MOVE_UNIT_30 => 1
  | .MOVE_UNIT_60 => 1
  | .MOVE_UNIT_100 => 1
  | .MOVE_UNIT_LEAD => 1

/-- The `k` velocity percentage of the continuous branch
(whb04b-4.ts:616-633); feeds without a `case` leave the initial `0`. -/
def kOf : Feed → ℚ
  | .MOVE_UNIT_2 => 2 / 100
  | .MOVE_UNIT_10 => 1 / 10
  | .MOVE_UNIT_30 => 3 / 10
  | .MOVE_UNIT_60 => 6 / 10
  | .MOVE_UNIT_100 => 1
  | _ => 0

/-- The axis max-velocity (`$110..$112`) and max-acceleration
(`$120..$122`) settings, modelled post-`parseFloat` as exact rationals. -/
structure GrblAxisSettings where
  v110 : ℚ
  v111 : ℚ
  v112 : ℚ
  a120 : ℚ
  a121 : ℚ
  a122 : ℚ
deriving DecidableEq, Repr

/-- `maxVelocity` per the axis switch (whb04b-4.ts:636-649); axes without
a `case` (OFF, A) leave the initial `0`. -/
def vmaxOf (S : GrblAxisSettings) : Axis → ℚ
  | .X => S.v110
  | .Y => S.v111
  | .Z => S.v112
  | _ => 0

/-- `maxAcceleration` per the axis switches (whb04b-4.ts:636-649 and
671-683); axes without a `case` (OFF, A) leave the initial `0`. -/
def amaxOf (S : GrblAxisSettings) : Axis → ℚ
  | .X => S.a120
  | .Y => S.a121
  | .Z => S.a122
  | _ => 0

/-- `requestedVelocity` (whb04b-4.ts:650). -/
def requestedVelocity (S : GrblAxisSettings) (axis : Axis) (feed : Feed)
    (jog : ℤ) : ℚ :=
  max (vmaxOf S axis) (kOf feed * vmaxOf S axis * |(jog : ℚ)|)

/-- `actualVelocity` (whb04b-4.ts:651-654). -/
def actualVelocity (S : GrblAxisSettings) (axis : Axis) (feed : Feed)
    (jog : ℤ) (lastVelocity dt : ℚ) : ℚ :=
  max (requestedVelocity S axis feed jog) (lastVelocity + amaxOf S axis * dt / 1000)

/-- The per-tick jog `distance` (whb04b-4.ts:655-656). -/
def jogTickDistance (S : GrblAxisSettings) (axis : Axis) (feed : Feed)
    (jog : ℤ) (lastVelocity dt : ℚ) : ℚ :=
  (Int.sign jog : ℚ) *
    (jsRound (actualVelocity S axis feed jog lastVelocity dt * dt / 60000 * 1000) : ℚ) / 1000

/-- The driver state consulted and mutated by the jog-handling tail of
`handleData` (whb04b-4.ts:595-686): `controllerState.jogMode`, the
persisted `lastVelocity`, and the command-queue state. -/
structure JogState where
  jogMode : JogMode
  lastVelocity : ℚ
  q : QState
deriving DecidableEq, Repr

/-- `sendPositionGCode` (whb04b-4.ts:707-710): push a POSITION command
and drain. -/
def sendPositionGCode (q : QState) (code : String) : QState × List Emission :=
  processCommandBuffer
    { q with commandBuffer := q.commandBuffer ++ [⟨CommandType.Position, code⟩] }

/-- The jog-handling tail of `handleData` (whb04b-4.ts:595-686), given the
report's selected axis and feed (whb04b-4.ts:484-485), the raw jog byte,
and the elapsed time `dt` in milliseconds.  Faithful details: the step
branch fires for `jogMode == STEP` with nonzero delta; the continuous
branch clears `commandBuffer` first (line 615), sends only when
`commandExecuted` is `true` (line 658) and only for axes X/Y/Z, and never
writes `lastVelocity`; the remaining (decay) branch — taken exactly when
the decoded delta is `0`, since `JogMode` has only two members — updates
`lastVelocity` and clears the buffer without draining. -/
def handleJog (S : GrblAxisSettings) (st : JogState) (axis : Axis) (feed : Feed)
    (jogByte : ℕ) (dt : ℚ) : JogState × List Emission :=
  let jogCounts := decodeJogCounts jogByte
  if st.jogMode = JogMode.STEP ∧ 0 < |jogCounts| then
    let steps : ℚ := (jsRound ((jogCounts : ℚ) * FeedStepMap feed * 1000) : ℚ) / 1000
    match axis with
    | .X =>
      let r := sendPositionGCode st.q ("G0 X" ++ toString steps)
      ({ st with q := r.1 }, r.2)
    | .Y =>
      let r := sendPositionGCode st.q ("G0 Y" ++ toString steps)
      ({ st with q := r.1 }, r.2)
    | .Z =>
      let r := sendPositionGCode st.q ("G0 Z" ++ toString steps)
      ({ st with q := r.1 }, r.2)
    | .A =>
      let r := sendPositionGCode st.q ("G0 A" ++ toString steps)
      ({ st with q := r.1 }, r.2)
    | .OFF => (st, [])
  else if st.jogMode = JogMode.CONTINUOUS ∧ 0 < |jogCounts| then
    let q1 : QState := { st.q with commandBuffer := [] }
    let dist := jogTickDistance S axis feed jogCounts st.lastVelocity dt
    if q1.commandExecuted then
      match axis with
      | .X =>
        let r := sendPositionGCode q1 ("G0 X" ++ toString dist)
        ({ st with q := r.1 }, r.2)
      | .Y =>
        let r := sendPositionGCode q1 ("G0 Y" ++ toString dist)
        ({ st with q := r.1 }, r.2)
      | .Z =>
        let r := sendPositionGCode q1 ("G0 Z" ++ toString dist)
        ({ st with q := r.1 }, r.2)
      | _ => ({ st with q := q1 }, [])
    else ({ st with q := q1 }, [])
  else
    ({ st with
        lastVelocity := max 0 (st.lastVelocity - amaxOf S axis * dt / 1000),
        q := { st.q with commandBuffer := [] } }, [])

lemma handleJog_cont_frame (S : GrblAxisSettings) (st : JogState) (axis : Axis)
    (feed : Feed) (b : ℕ) (dt : ℚ)
    (hmode : st.jogMode = JogMode.CONTINUOUS) (hjog : decodeJogCounts b ≠ 0) :
    (handleJog S st axis feed b dt).1.lastVelocity = st.lastVelocity ∧
    (handleJog S st axis feed b dt).1.jogMode = JogMode.CONTINUOUS := by
  unfold handleJog
  have h1 : ¬(st.jogMode = JogMode.STEP ∧ 0 < |decodeJogCounts b|) := by
    rintro ⟨hs, -⟩
    rw [hmode] at hs
    cases hs
  have h2 : st.jogMode = JogMode.CONTINUOUS ∧ 0 < |decodeJogCounts b| :=
    ⟨hmode, abs_pos.mpr hjog⟩
  rw [if_neg h1, if_pos h2]
  dsimp only
  split
  · cases axis <;> exact ⟨rfl, hmode⟩
  · exact ⟨rfl, hmode⟩

lemma handleJog_decay (S : GrblAxisSettings) (st : JogState) (axis : Axis)
    (feed : Feed) (dt : ℚ) :
    handleJog S st axis feed 0 dt =
      ({ st with
          lastVelocity := max 0 (st.lastVelocity - amaxOf S axis * dt / 1000),
          q := { st.q with commandBuffer := [] } }, []) := by
  unfold handleJog
  simp [decodeJogCounts]

lemma max_decay_step (L a c : ℚ) (ha : 0 ≤ a) :
    max 0 (max 0 (L - c) - a) = max 0 (L - (c + a)) := by
  rcases le_total (L - c) 0 with h | h
  · rw [max_eq_left h, max_eq_left (by linarith), max_eq_left (by linarith)]
  · rw [max_eq_right h, sub_sub]

/-- C2: with `jogMode = CONTINUOUS` and a constant nonzero jog byte and
constant `dt`, the velocity-generator invocations carry `lastVelocity`
across calls — the continuous branch never writes it, so it persists
unchanged — and the produced `actual` velocity never drops below the
previous tick's `lastVelocity`; across ticks `actual` is monotone
nondecreasing with a per-tick increase bounded by `Amax * dt` (the
increase is in fact `0`: since `lastVelocity` is never raised, `actual`
is the same at every tick).  Once the delta drops to zero, each report
decays `lastVelocity` by `Amax * dt`, clamped at `0`, so it reaches `0`
(whenever `Amax * dt > 0`) and stays `≥ 0`. -/
theorem velocity_ramp_spec (S : GrblAxisSettings) (st : JogState) (axis : Axis)
    (feed : Feed) (b : ℕ) (dt : ℚ)
    (hmode : st.jogMode = JogMode.CONTINUOUS) (hjog : decodeJogCounts b ≠ 0)
    (hdt : 0 ≤ dt) (hA : 0 ≤ amaxOf S axis) :
    let f := fun s : JogState => (handleJog S s axis feed b dt).1
    let g := fun s : JogState => (handleJog S s axis feed 0 dt).1
    let act := fun s : JogState =>
      actualVelocity S axis feed (decodeJogCounts b) s.lastVelocity dt
    (∀ n : ℕ, (f^[n] st).lastVelocity = st.lastVelocity) ∧
    (∀ n : ℕ, (f^[n] st).lastVelocity ≤ act (f^[n] st)) ∧
    (∀ n : ℕ, act (f^[n] st) ≤ act (f^[n + 1] st) ∧
      act (f^[n + 1] st) - act (f^[n] st) ≤ amaxOf S axis * dt / 1000) ∧
    (∀ (m : ℕ) (s0 : JogState),
      (g^[m + 1] s0).lastVelocity =
        max 0 (s0.lastVelocity - (m + 1) * (amaxOf S axis * dt / 1000)) ∧
      0 ≤ (g^[m + 1] s0).lastVelocity) ∧
    (0 < amaxOf S axis * dt → ∀ s0 : JogState,
      ∃ m : ℕ, (g^[m] s0).lastVelocity = 0) := by
  intro f g act
  have hf : ∀ s, f s = (handleJog S s axis feed b dt).1 := fun _ => rfl
  have hg : ∀ s, g s = (handleJog S s axis feed 0 dt).1 := fun _ => rfl
  have hact : ∀ s, act s =
      actualVelocity S axis feed (decodeJogCounts b) s.lastVelocity dt :=
    fun _ => rfl
  have hiter : ∀ n : ℕ, (f^[n] st).lastVelocity = st.lastVelocity ∧
      (f^[n] st).jogMode = JogMode.CONTINUOUS := by
    intro n
    induction n with
    | zero => exact ⟨rfl, hmode⟩
    | succ k ih =>
      rw [Function.iterate_succ_apply', hf]
      have h := handleJog_cont_frame S (f^[k] st) axis feed b dt ih.2 hjog
      exact ⟨h.1.trans ih.1, h.2⟩
  have hlv : ∀ n, (f^[n] st).lastVelocity = st.lastVelocity :=
    fun n => (hiter n).1
  have hpos : 0 ≤ amaxOf S axis * dt / 1000 := by positivity
  have hactlb : ∀ lv : ℚ,
      lv ≤ actualVelocity S axis feed (decodeJogCounts b) lv dt := by
    intro lv
    have h2 : lv + amaxOf S axis * dt / 1000 ≤
        actualVelocity S axis feed (decodeJogCounts b) lv dt :=
      le_max_right _ _
    linarith
  have hgstep : ∀ s0 : JogState,
      (g s0).lastVelocity = max 0 (s0.lastVelocity - amaxOf S axis * dt / 1000) := by
    intro s0
    rw [hg, handleJog_decay]
  have hdecay : ∀ (m : ℕ) (s0 : JogState),
      (g^[m + 1] s0).lastVelocity =
        max 0 (s0.lastVelocity - (m + 1) * (amaxOf S axis * dt / 1000)) := by
    intro m
    induction m with
    | zero =>
      intro s0
      rw [Function.iterate_one, hgstep]
      norm_num
    | succ k ih =>
      intro s0
      rw [Function.iterate_succ_apply', hgstep, ih s0,
        max_decay_step _ _ _ hpos]
      congr 1
      push_cast
      ring
  refine ⟨hlv, ?_, ?_, ?_, ?_⟩
  · intro n
    rw [hact]
    exact hactlb _
  · intro n
    have he : act (f^[n + 1] st) = act (f^[n] st) := by
      rw [hact, hact, hlv, hlv]
    refine ⟨le_of_eq he.symm, ?_⟩
    rw [he]
    linarith
  · intro m s0
    refine ⟨hdecay m s0, ?_⟩
    rw [hdecay m s0]
    exact le_max_left _ _
  · intro hADT s0
    have ha1000 : 0 < amaxOf S axis * dt / 1000 := by linarith
    obtain ⟨m, hm⟩ :=
      exists_nat_ge (s0.lastVelocity / (amaxOf S axis * dt / 1000))
    refine ⟨m + 1, ?_⟩
    rw [hdecay m s0]
    have hle : s0.lastVelocity ≤ m * (amaxOf S axis * dt / 1000) := by
      rw [div_le_iff₀ ha1000] at hm
      linarith
    have : s0.lastVelocity - (m + 1) * (amaxOf S axis * dt / 1000) ≤ 0 := by
      nlinarith
    rw [max_eq_left this]

/-- C2 witness: the theorem applied at a concrete machine (`Vmax = 3000`,
`Amax = 500`), axis X, feed 100%, jog byte 5, `dt = 50 ms`, iterated
3 ticks from a fresh state. -/
theorem velocity_ramp_spec_witness :
    (((fun s => (handleJog ⟨3000, 3000, 3000, 500, 500, 500⟩ s Axis.X
          Feed.MOVE_UNIT_100 5 50).1)^[3])
        ⟨JogMode.CONTINUOUS, 0, qInit⟩).lastVelocity = 0 ∧
    (0 : ℚ) ≤ actualVelocity ⟨3000, 3000, 3000, 500, 500, 500⟩ Axis.X
      Feed.MOVE_UNIT_100 (decodeJogCounts 5) 0 50 := by
  have h := velocity_ramp_spec ⟨3000, 3000, 3000, 500, 500, 500⟩
    ⟨JogMode.CONTINUOUS, 0, qInit⟩ Axis.X Feed.MOVE_UNIT_100 5 50 rfl
    (by decide) (by norm_num) (by norm_num [amaxOf])
  obtain ⟨h1, h2, -, -, -⟩ := h
  exact ⟨(h1 3).trans rfl, h2 0⟩

/-- C7 counterexample: the claim as frozen is false on the code.  With
`jogMode = STEP` and a nonzero jog delta (a case where "jogMode is not
CONTINUOUS"), the code takes the step-jog branch (whb04b-4.ts:598-613)
instead of the decay branch: `lastVelocity` stays at `5` (the claim's
formula `max(0, lastVelocity - Amax*dt)` would give `0` here), and the
command buffer GROWS by the enqueued step command instead of being
discarded. -/
theorem decay_claim_counterexample :
    (handleJog ⟨1000, 1000, 1000, 1000, 1000, 1000⟩
        ⟨JogMode.STEP, 5, ⟨false, [], Distance.Absolute⟩⟩ Axis.X
        Feed.MOVE_UNIT_30 1 1000).1.lastVelocity = 5 ∧
    ((handleJog ⟨1000, 1000, 1000, 1000, 1000, 1000⟩
        ⟨JogMode.STEP, 5, ⟨false, [], Distance.Absolute⟩⟩ Axis.X
        Feed.MOVE_UNIT_30 1 1000).1.q.commandBuffer).length = 1 :=
  ⟨rfl, rfl⟩

/-- C7 (amended): the decay branch fires exactly when the decoded jog
delta is `0` (whatever `jogMode` is, since `JogMode` has only CONTINUOUS
and STEP); it then sets `lastVelocity := max(0, lastVelocity - Amax*dt)`
for the selected axis and discards all buffered not-yet-sent commands,
emitting nothing.  When `jogMode = STEP` with a nonzero delta, the
step-jog branch runs instead and `lastVelocity` is left untouched. -/
theorem decay_discard_spec (S : GrblAxisSettings) (st : JogState) (axis : Axis)
    (feed : Feed) (b : ℕ) (dt : ℚ) :
    (decodeJogCounts b = 0 →
      handleJog S st axis feed b dt =
        ({ st with
            lastVelocity := max 0 (st.lastVelocity - amaxOf S axis * dt / 1000),
            q := { st.q with commandBuffer := [] } }, [])) ∧
    (st.jogMode = JogMode.STEP → decodeJogCounts b ≠ 0 →
      (handleJog S st axis feed b dt).1.lastVelocity = st.lastVelocity) := by
  constructor
  · intro h
    unfold handleJog
    rw [h]
    simp
  · intro hs hj
    unfold handleJog
    rw [if_pos ⟨hs, abs_pos.mpr hj⟩]
    dsimp only
    cases axis <;> rfl

/-- C7 witness: a zero-delta report while CONTINUOUS decays
`lastVelocity` from 7 to 0 (`Amax*dt = 1000`) and empties the buffer. -/
theorem decay_discard_spec_witness :
    (handleJog ⟨1000, 1000, 1000, 1000, 1000, 1000⟩
        ⟨JogMode.CONTINUOUS, 7, qInit⟩ Axis.X Feed.MOVE_UNIT_100
        0 1000).1.lastVelocity = 0 ∧
    (handleJog ⟨1000, 1000, 1000, 1000, 1000, 1000⟩
        ⟨JogMode.CONTINUOUS, 7, qInit⟩ Axis.X Feed.MOVE_UNIT_100
        0 1000).1.q.commandBuffer = [] := by
  have h := (decay_discard_spec ⟨1000, 1000, 1000, 1000, 1000, 1000⟩
    ⟨JogMode.CONTINUOUS, 7, qInit⟩ Axis.X Feed.MOVE_UNIT_100 0 1000).1 rfl
  rw [h]
  refine ⟨?_, rfl⟩
  show max (0 : ℚ)
      (7 - amaxOf ⟨1000, 1000, 1000, 1000, 1000, 1000⟩ Axis.X * 1000 / 1000) = 0
  have hv : (7 : ℚ) -
      amaxOf ⟨1000, 1000, 1000, 1000, 1000, 1000⟩ Axis.X * 1000 / 1000 = -993 := by
    norm_num [amaxOf]
  rw [hv, max_eq_left (by norm_num)]

/-- A byte store into the function-modelled buffer (`buffer[i] = v`). -/
def store (f : ℕ → ℕ) (i v : ℕ) : ℕ → ℕ := fun j => if j = i then v else f j

/-- `buffer.writeUInt16LE(v, off)`: low byte of the (low 16 bits of the)
value at `off`, high byte at `off + 1`. -/
def writeUInt16LE (f : ℕ → ℕ) (v : ℤ) (off : ℕ) : ℕ → ℕ :=
  let w := (v % 65536).toNat
  store (store f off (w % 256)) (off + 1) (w / 256)

/-- `setBit` (whb04b-4.ts:405-411) on the byte at index `i`:
`buffer[byte] &= ~(1 << bit)` when the value is `0`, else
`buffer[byte] |= 1 << bit` (byte values stay below 256, so the 32-bit
`~(1 << bit)` mask acts as `255 - 2^bit`). -/
def setBitFn (f : ℕ → ℕ) (i bit v : ℕ) : ℕ → ℕ :=
  store f i (if v = 0 then (f i).land (255 - 2 ^ bit) else (f i).lor (2 ^ bit))

/-- The state read by `displayEncode` (whb04b-4.ts:413-479): jog mode,
coordinate system, the work and machine positions (post `parseFloat`,
modelled as exact rationals), and the displayed feed-rate and spindle
values. -/
structure DisplayState where
  jogMode : JogMode
  coordinateSystem : CoordinateSystem
  wposX : ℚ
  wposY : ℚ
  wposZ : ℚ
  mposX : ℚ
  mposY : ℚ
  mposZ : ℚ
  feedRate : ℤ
  spindle : ℤ
deriving DecidableEq, Repr

/-- One displayed position's words:
`encodeFloat (Math.round(1000 * p) / 1000)` (whb04b-4.ts:432-450). -/
def posWords (p : ℚ) : ℤ × ℤ := encodeFloat ((jsRound (1000 * p) : ℚ) / 1000)

/-- The 42-byte logical display buffer of `displayEncode`
(whb04b-4.ts:418-456) as a byte function built by the source's exact
write sequence.  The source's `i` arithmetic produces: header at 0..2,
status byte at 3, the six position words at offsets 4/6/8/10/12/14, the
feed-rate word at 17, the spindle word at 19 (whose low byte the
following `buffer[i++] = 0` at `i = 19` immediately overwrites), and
`buffer[36] = 0`.  The work/machine branch of the source duplicates the
six position writes with identical offsets, differing only in the
position sources, so it is modelled by selecting the coordinates once. -/
def displayBufferFn (st : DisplayState) : ℕ → ℕ :=
  let f0 : ℕ → ℕ := fun _ => 0
  let f1 := store f0 0 0xfe
  let f2 := store f1 1 0xfd
  let f3 := store f2 2 0x0c
  let f4 := store f3 3 0x0
  let f5 := setBitFn f4 3 0 (if st.jogMode = JogMode.CONTINUOUS then 0 else 1)
  let f6 := setBitFn f5 3 7
    (if st.coordinateSystem = CoordinateSystem.workCoordinates then 1 else 0)
  let px := if st.coordinateSystem = CoordinateSystem.workCoordinates then
      posWords st.wposX else posWords st.mposX
  let py := if st.coordinateSystem = CoordinateSystem.workCoordinates then
      posWords st.wposY else posWords st.mposY
  let pz := if st.coordinateSystem = CoordinateSystem.workCoordinates then
      posWords st.wposZ else posWords st.mposZ
  let f7 := writeUInt16LE f6 px.1 4
  let f8 := writeUInt16LE f7 px.2 6
  let f9 := writeUInt16LE f8 py.1 8
  let f10 := writeUInt16LE f9 py.2 10
  let f11 := writeUInt16LE f10 pz.1 12
  let f12 := writeUInt16LE f11 pz.2 14
  let f13 := writeUInt16LE f12 st.feedRate 17
  let f14 := writeUInt16LE f13 st.spindle 19
  let f15 := store f14 19 0
  store f15 36 0

/-- The 42-byte logical buffer as a list (`Buffer.alloc(6 * 7)`). -/
def displayBuffer42 (st : DisplayState) : List ℕ :=
  (List.range (6 * 7)).map (displayBufferFn st)

/-- The inner `j` loop of the repackaging (whb04b-4.ts:459-467): the
eight bytes of one output report, `6` at `j = 0` and `buffer[i++]` for
`j = 1..7`; returns the bytes and the advanced `i`. -/
def packageLoop (buf : ℕ → ℕ) : ℕ → ℕ → ℕ → List ℕ × ℕ
  | 0, _, i => ([], i)
  | n + 1, j, i =>
    if j = 0 then
      let r := packageLoop buf n (j + 1) i
      (6 :: r.1, r.2)
    else
      let r := packageLoop buf n (j + 1) (i + 1)
      (buf i :: r.1, r.2)

/-- The outer `packageIndex` loop (whb04b-4.ts:459-467) combined with the
`data.slice(8 * p, 8 * (p + 1))` control transfers (whb04b-4.ts:469-478):
each `packageIndex` writes exactly the `data` indices `8p .. 8p+7`, once
each, so each transferred slice is exactly the eight bytes written for
that package, in write order. -/
def reportsLoop (buf : ℕ → ℕ) : ℕ → ℕ → List (List ℕ)
  | 0, _ => []
  | n + 1, i =>
    let r := packageLoop buf 8 0 i
    r.1 :: reportsLoop buf n r.2

/-- The six 8-byte HID output reports sent by `displayEncode`. -/
def displayReports (st : DisplayState) : List (List ℕ) :=
  reportsLoop (displayBufferFn st) 6 0

/-- C5: every display transmission builds a logical buffer of exactly 42
bytes beginning with the magic header `0xFE 0xFD 0x0C`, and sends exactly
six 8-byte output reports whose first byte is the constant report id `6`
and whose remaining 7 bytes are sliced sequentially — in order, without
gaps or overlap — from the 42-byte buffer (their concatenation is the
whole buffer). -/
theorem displayEncode_spec (st : DisplayState) :
    (displayBuffer42 st).length = 42 ∧
    (displayBuffer42 st).take 3 = [0xfe, 0xfd, 0x0c] ∧
    (displayReports st).length = 6 ∧
    (∀ r ∈ displayReports st, r.length = 8 ∧ r.head? = some 6) ∧
    ((displayReports st).map (List.drop 1)).flatten = displayBuffer42 st := by
  have hbuf : displayBuffer42 st =
      [displayBufferFn st 0, displayBufferFn st 1, displayBufferFn st 2,
       displayBufferFn st 3, displayBufferFn st 4, displayBufferFn st 5,
       displayBufferFn st 6, displayBufferFn st 7, displayBufferFn st 8,
       displayBufferFn st 9, displayBufferFn st 10, displayBufferFn st 11,
       displayBufferFn st 12, displayBufferFn st 13, displayBufferFn st 14,
       displayBufferFn st 15, displayBufferFn st 16, displayBufferFn st 17,
       displayBufferFn st 18, displayBufferFn st 19, displayBufferFn st 20,
       displayBufferFn st 21, displayBufferFn st 22, displayBufferFn st 23,
       displayBufferFn st 24, displayBufferFn st 25, displayBufferFn st 26,
       displayBufferFn st 27, displayBufferFn st 28, displayBufferFn st 29,
       displayBufferFn st 30, displayBufferFn st 31, displayBufferFn st 32,
       displayBufferFn st 33, displayBufferFn st 34, displayBufferFn st 35,
       displayBufferFn st 36, displayBufferFn st 37, displayBufferFn st 38,
       displayBufferFn st 39, displayBufferFn st 40, displayBufferFn st 41] := rfl
  have hrep : displayReports st =
      [[6, displayBufferFn st 0, displayBufferFn st 1, displayBufferFn st 2,
        displayBufferFn st 3, displayBufferFn st 4, displayBufferFn st 5,
        displayBufferFn st 6],
       [6, displayBufferFn st 7, displayBufferFn st 8, displayBufferFn st 9,
        displayBufferFn st 10, displayBufferFn st 11, displayBufferFn st 12,
        displayBufferFn st 13],
       [6, displayBufferFn st 14, displayBufferFn st 15, displayBufferFn st 16,
        displayBufferFn st 17, displayBufferFn st 18, displayBufferFn st 19,
        displayBufferFn st 20],
       [6, displayBufferFn st 21, displayBufferFn st 22, displayBufferFn st 23,
        displayBufferFn st 24, displayBufferFn st 25, displayBufferFn st 26,
        displayBufferFn st 27],
       [6, displayBufferFn st 28, displayBufferFn st 29, displayBufferFn st 30,
        displayBufferFn st 31, displayBufferFn st 32, displayBufferFn st 33,
        displayBufferFn st 34],
       [6, displayBufferFn st 35, displayBufferFn st 36, displayBufferFn st 37,
        displayBufferFn st 38, displayBufferFn st 39, displayBufferFn st 40,
        displayBufferFn st 41]] := rfl
  refine ⟨?_, ?_, ?_, ?_, ?_⟩
  · rw [hbuf]
    rfl
  · rfl
  · rw [hrep]
    rfl
  · intro r hr
    rw [hrep] at hr
    simp only [List.mem_cons, List.not_mem_nil, or_false] at hr
    rcases hr with rfl | rfl | rfl | rfl | rfl | rfl <;> exact ⟨rfl, rfl⟩
  · rw [hrep, hbuf]
    rfl

/-- C5 witness: the theorem applied at a concrete display state; the
first transferred report has 8 bytes and starts with the report id 6. -/
theorem displayEncode_spec_witness :
    ([6, displayBufferFn ⟨JogMode.CONTINUOUS, CoordinateSystem.machineCoordinates,
        0, 0, 0, 0, 0, 0, 0, 0⟩ 0,
      displayBufferFn ⟨JogMode.CONTINUOUS, CoordinateSystem.machineCoordinates,
        0, 0, 0, 0, 0, 0, 0, 0⟩ 1,
      displayBufferFn ⟨JogMode.CONTINUOUS, CoordinateSystem.machineCoordinates,
        0, 0, 0, 0, 0, 0, 0, 0⟩ 2,
      displayBufferFn ⟨JogMode.CONTINUOUS, CoordinateSystem.machineCoordinates,
        0, 0, 0, 0, 0, 0, 0, 0⟩ 3,
      displayBufferFn ⟨JogMode.CONTINUOUS, CoordinateSystem.machineCoordinates,
        0, 0, 0, 0, 0, 0, 0, 0⟩ 4,
      displayBufferFn ⟨JogMode.CONTINUOUS, CoordinateSystem.machineCoordinates,
        0, 0, 0, 0, 0, 0, 0, 0⟩ 5,
      displayBufferFn ⟨JogMode.CONTINUOUS, CoordinateSystem.machineCoordinates,
        0, 0, 0, 0, 0, 0, 0, 0⟩ 6] : List ℕ).length = 8 ∧
    ([6, displayBufferFn ⟨JogMode.CONTINUOUS, CoordinateSystem.machineCoordinates,
        0, 0, 0, 0, 0, 0, 0, 0⟩ 0,
      displayBufferFn ⟨JogMode.CONTINUOUS, CoordinateSystem.machineCoordinates,
        0, 0, 0, 0, 0, 0, 0, 0⟩ 1,
      displayBufferFn ⟨JogMode.CONTINUOUS, CoordinateSystem.machineCoordinates,
        0, 0, 0, 0, 0, 0, 0, 0⟩ 2,
      displayBufferFn ⟨JogMode.CONTINUOUS, CoordinateSystem.machineCoordinates,
        0, 0, 0, 0, 0, 0, 0, 0⟩ 3,
      displayBufferFn ⟨JogMode.CONTINUOUS, CoordinateSystem.machineCoordinates,
        0, 0, 0, 0, 0, 0, 0, 0⟩ 4,
      displayBufferFn ⟨JogMode.CONTINUOUS, CoordinateSystem.machineCoordinates,
        0, 0, 0, 0, 0, 0, 0, 0⟩ 5,
      displayBufferFn ⟨JogMode.CONTINUOUS, CoordinateSystem.machineCoordinates,
        0, 0, 0, 0, 0, 0, 0, 0⟩ 6] : List ℕ).head? = some 6 := by
  have h := displayEncode_spec ⟨JogMode.CONTINUOUS,
    CoordinateSystem.machineCoordinates, 0, 0, 0, 0, 0, 0, 0, 0⟩
  exact h.2.2.2.1 _ (List.mem_cons_self _ _)

end Whb04b4
